import Mathlib

/-!
Verification development for the beam broker's in-memory task exchange
(src/broker/src/serve_tasks.rs and src/broker/src/serve_sockets.rs).

The data model types (identities, message envelopes, work statuses) live in the
shared crate, which is not part of the sources at hand; they are modelled from
spec.md §3 and from how serve_tasks.rs uses them.  All handler and waiter logic
is translated directly from src/broker/src/serve_tasks.rs.
-/

namespace Beam

/-- Modelled from the spec (§3 Identifiers): an app-or-proxy identity is a
dot-joined name; equality is string equality after normalization.  The shared
crate's id types are not under src/. -/
structure AppOrProxyId where
  name : String
deriving DecidableEq, Repr

/-- Modelled from the spec (§3): a 128-bit message id uniquely naming a task.
Represented as a natural number; no claim depends on the bit width. -/
structure MsgId where
  val : Nat
deriving DecidableEq, Repr

/-- Rendering of a message id, used for the Location header and error texts. -/
def MsgId.toStr (i : MsgId) : String := toString i.val

/-- Modelled from the spec (§3): work status of a result.  The variants carry no
data, so a Rust `std::mem::discriminant` comparison coincides with equality. -/
inductive WorkStatus where
  | Claimed
  | TempFailed
  | PermFailed
  | Succeeded
deriving DecidableEq, Repr

/-- Modelled from the spec (§3): failure strategy carried opaquely in a task. -/
inductive FailureStrategy where
  | Discard
  | Retry (backoff_millisecs : Nat) (max_tries : Nat)
deriving DecidableEq, Repr

/-- Modelled from the spec (§3 Signed envelope): an opaque payload together with
its signature token.  The signature was verified before the value existed. -/
structure MsgSigned (M : Type) where
  msg : M
  sig : String
deriving DecidableEq, Repr

/-- Modelled from the spec (§3 Encrypted result): a reply from one recipient of
a task.  `metadata` and `body` are opaque to the core. -/
structure EncryptedMsgTaskResult where
  «from» : AppOrProxyId
  «to» : List AppOrProxyId
  task : MsgId
  status : WorkStatus
  metadata : String
  body : Option String
deriving DecidableEq, Repr

/-- Modelled from the spec (§3 Encrypted task request).  The `results` mapping
(worker identity to signed result) is kept as an association list; the broker's
HashMap has at most one entry per key, which the insert operation preserves. -/
structure EncryptedMsgTaskRequest where
  id : MsgId
  «from» : AppOrProxyId
  «to» : List AppOrProxyId
  ttl : Nat
  metadata : String
  body : String
  failure_strategy : FailureStrategy
  results : List (AppOrProxyId × MsgSigned EncryptedMsgTaskResult)
deriving DecidableEq, Repr

/-- Modelled from the spec (§3 Socket task): same shell as a task request but
with no result aggregation. -/
structure MsgSocketRequest where
  id : MsgId
  «from» : AppOrProxyId
  «to» : List AppOrProxyId
  ttl : Nat
deriving DecidableEq, Repr

/-- Query parameters governing a long poll (shared crate's `HowLongToBlock`,
modelled from the spec §4.3): an optional count threshold and an optional wait
time. -/
structure HowLongToBlock where
  wait_count : Option Nat
  wait_time : Option Nat
deriving DecidableEq, Repr

/-- The shared crate's `Msg` trait: every message exposes a sender and a
recipient set. -/
class Msg (M : Type) where
  get_from : M → AppOrProxyId
  get_to : M → List AppOrProxyId

instance : Msg EncryptedMsgTaskRequest where
  get_from m := m.«from»
  get_to m := m.«to»

instance : Msg EncryptedMsgTaskResult where
  get_from m := m.«from»
  get_to m := m.«to»

instance : Msg MsgSocketRequest where
  get_from m := m.«from»
  get_to m := m.«to»

instance [Msg M] : Msg (MsgSigned M) where
  get_from m := Msg.get_from m.msg
  get_to m := Msg.get_to m.msg

/-! ### Association-list primitives

The broker stores tasks in a `HashMap<MsgId, _>` and each task's results in a
`HashMap<AppOrProxyId, _>`.  Both are embedded as association lists with
HashMap semantics: lookup finds the unique entry, insert replaces an existing
entry in place or appends a fresh one, erase drops every entry for the key. -/

def alookup {K V : Type} [DecidableEq K] : List (K × V) → K → Option V
  | [], _ => none
  | (k', v) :: rest, k => if k' = k then some v else alookup rest k

def ainsert {K V : Type} [DecidableEq K] (k : K) (v : V) : List (K × V) → List (K × V)
  | [] => [(k, v)]
  | (k', v') :: rest => if k' = k then (k, v) :: rest else (k', v') :: ainsert k v rest

def aerase {K V : Type} [DecidableEq K] (k : K) : List (K × V) → List (K × V)
  | [] => []
  | (k', v') :: rest => if k' = k then aerase k rest else (k', v') :: aerase k rest

/-! ### Status-code helpers (src/broker/src/serve_tasks.rs lines 240–250) -/

/-- `would_wait_for_elements` from serve_tasks.rs: whether the handler should
subscribe and block, i.e. whether the requested count exceeds the number of
elements already present. -/
def would_wait_for_elements (existing_elements : Nat) (block : HowLongToBlock) : Bool :=
  block.wait_count.getD 0 > existing_elements

/-- `wait_get_statuscode` from serve_tasks.rs: 206 Partial Content when the
final buffer is still shorter than the requested count, 200 OK otherwise. -/
def wait_get_statuscode {S : Type} (vec : List S) (block : HowLongToBlock) : Nat :=
  if block.wait_count.getD 0 > vec.length then 206 else 200

/-! ### The task registry state (serve_tasks.rs `TasksState`)

`tasks` is the map from task id to stored signed task; `new_result_tx` is the
parallel map from task id to that task's result broadcast sender.  Only the
sender map's key set matters to the embedded logic; subscriptions are modelled
by feeding each waiter an explicit event list. -/

structure TasksState where
  tasks : List (MsgId × MsgSigned EncryptedMsgTaskRequest)
  new_result_tx : List MsgId
deriving DecidableEq, Repr

def emptyState : TasksState := ⟨[], []⟩

/-- The distinct `panic!` sites reachable from the embedded handlers. -/
inductive PanicKind where
  | noResultTx (task_id : MsgId)
  | noNewResultTx (task_id : MsgId)
  | channelRecv (channel : String)
deriving DecidableEq, Repr

/-- A handler's tagged result: a success response with a status code and a
location header (post/put), an error response with a status code and message,
or a panic that aborts the request without producing a response. -/
inductive Outcome where
  | ok (code : Nat) (location : Option String)
  | err (code : Nat) (message : String)
  | panic (kind : PanicKind)
deriving DecidableEq, Repr

/-- `post_task` (serve_tasks.rs lines 657–689): reject with 409 Conflict if the
id is taken; otherwise insert the task and its fresh result sender under the
write locks and answer 201 Created with a Location header. -/
def post_task (s : TasksState) (msg : MsgSigned EncryptedMsgTaskRequest) :
    Outcome × TasksState :=
  if (alookup s.tasks msg.msg.id).isSome then
    (.err 409 ("ID " ++ msg.msg.id.toStr ++ " is already taken."), s)
  else
    (.ok 201 (some ("/v1/tasks/" ++ msg.msg.id.toStr)),
     { tasks := ainsert msg.msg.id msg s.tasks,
       new_result_tx :=
         if msg.msg.id ∈ s.new_result_tx then s.new_result_tx
         else msg.msg.id :: s.new_result_tx })

/-- `put_result` (serve_tasks.rs lines 692–744): path/payload id checks (400),
task lookup (404), recipient-set authorization (401), then insert-or-replace in
the task's result map (201 on create, 204 on replace) and notify on the
per-task sender, panicking if the sender is missing. -/
def put_result (s : TasksState) (task_id : MsgId) (app_id : AppOrProxyId)
    (result : MsgSigned EncryptedMsgTaskResult) : Outcome × TasksState :=
  if task_id ≠ result.msg.task then
    (.err 400 "Task IDs supplied in path and payload do not match.", s)
  else
    let worker_id := result.msg.«from»
    if app_id ≠ worker_id then
      (.err 400 "AppID supplied in URL and signed message do not match.", s)
    else
      match alookup s.tasks task_id with
      | none => (.err 404 "Task not found", s)
      | some task =>
        if worker_id ∉ task.msg.«to» then
          (.err 401 "Your result is not requested for this task.", s)
        else
          let statuscode : Nat :=
            match alookup task.msg.results worker_id with
            | some _ => 204
            | none => 201
          let task' : MsgSigned EncryptedMsgTaskRequest :=
            { task with msg := { task.msg with results := ainsert worker_id result task.msg.results } }
          let s' : TasksState := { s with tasks := ainsert task_id task' s.tasks }
          if task_id ∈ s.new_result_tx then (.ok statuscode none, s')
          else (.panic (.noResultTx task_id), s')

/-- Modelled from the spec (§4.4): the expiry sweeper (`expire::watch`, whose
source file is not under src/) removes an expired task from the task map and
broadcasts the deletion.  Per the wiring in serve_tasks.rs `router`, the
sweeper receives only the `tasks` map and a new-task receiver, so it cannot
touch `new_result_tx`. -/
def remove_task (s : TasksState) (task_id : MsgId) : Outcome × TasksState :=
  (.ok 200 none, { s with tasks := aerase task_id s.tasks })

/-- One state-changing request against the task registry. -/
inductive Op where
  | post (m : MsgSigned EncryptedMsgTaskRequest)
  | put (task_id : MsgId) (app_id : AppOrProxyId) (r : MsgSigned EncryptedMsgTaskResult)
  | expire (task_id : MsgId)
deriving DecidableEq, Repr

def stepOp (s : TasksState) : Op → Outcome × TasksState
  | .post m => post_task s m
  | .put t a r => put_result s t a r
  | .expire t => remove_task s t

/-- Run a request sequence, collecting each request with its outcome. -/
def runPairs (s : TasksState) : List Op → List (Op × Outcome)
  | [] => []
  | op :: rest => (op, (stepOp s op).1) :: runPairs (stepOp s op).2 rest

/-- The state after running a request sequence. -/
def execOps (s : TasksState) : List Op → TasksState
  | [] => s
  | op :: rest => execOps (stepOp s op).2 rest

/-! ### Waiter loops (serve_tasks.rs lines 338–444)

Each long-poll loop sits in a `tokio::select!` over a deadline timer, a
"new item" broadcast receiver and a "deleted task" broadcast receiver.  The
sequence of select outcomes observed by one request is modelled as an explicit
event list; an exhausted event list leaves the loop still waiting with its
current buffer. -/

inductive WaiterEvent (M : Type) where
  | deadline
  | newItem (m : M)
  | deleted (id : MsgId)
  | newError
  | deletedError
deriving DecidableEq, Repr

/-- `wait_for_elements_task` (serve_tasks.rs lines 395–444): the task-listing
waiter.  `waitId` is the `HasWaitId<MsgId>` projection of the element type.
A matching new item evicts any buffered element with the same wait id before
being appended; a deletion evicts by id; a channel receive error panics. -/
def wait_for_elements_task {M : Type} (block : HowLongToBlock) (filter : M → Bool)
    (waitId : M → MsgId) : List M → List (WaiterEvent M) → Except PanicKind (List M)
  | vec, [] => .ok vec
  | vec, e :: rest =>
    if block.wait_count.getD 0 > vec.length then
      match e with
      | .deadline => .ok vec
      | .newItem m =>
        if filter m then
          wait_for_elements_task block filter waitId
            (vec.filter (fun el => decide (waitId el ≠ waitId m)) ++ [m]) rest
        else wait_for_elements_task block filter waitId vec rest
      | .deleted i =>
        wait_for_elements_task block filter waitId
          (vec.filter (fun el => decide (waitId el ≠ i))) rest
      | .newError => .error (.channelRecv "new_element_rx")
      | .deletedError => .error (.channelRecv "deleted_task_rx")
    else .ok vec

/-- `wait_for_results_for_task` (serve_tasks.rs lines 338–393): the
result-waiting variant.  It differs from the task-listing loop in the deletion
branch: a deletion of the watched task ends the wait early with the buffer
held so far, other deletions are ignored. -/
def wait_for_results_for_task {M I : Type} [DecidableEq I] (block : HowLongToBlock)
    (filter : M → Bool) (waitId : M → I) (task_id : MsgId) :
    List M → List (WaiterEvent M) → Except PanicKind (List M)
  | vec, [] => .ok vec
  | vec, e :: rest =>
    if block.wait_count.getD 0 > vec.length then
      match e with
      | .deadline => .ok vec
      | .newItem m =>
        if filter m then
          wait_for_results_for_task block filter waitId task_id
            (vec.filter (fun el => decide (waitId el ≠ waitId m)) ++ [m]) rest
        else wait_for_results_for_task block filter waitId task_id vec rest
      | .deleted i =>
        if i = task_id then .ok vec
        else wait_for_results_for_task block filter waitId task_id vec rest
      | .newError => .error (.channelRecv "new_result_rx")
      | .deletedError => .error (.channelRecv "deleted_task_rx")
    else .ok vec

/-! ### Message filters (serve_tasks.rs lines 535–654) -/

inductive MsgFilterMode where
  | Or
  | And
deriving DecidableEq, Repr

structure MsgFilterNoTask where
  «from» : Option AppOrProxyId
  «to» : Option AppOrProxyId
  mode : MsgFilterMode
deriving DecidableEq, Repr

/-- `MsgFilterTrait::filter_or`: true iff the from or the to condition matches
(or both); with no condition defined, everything matches. -/
def MsgFilterNoTask.filter_or {M : Type} [Msg M] (f : MsgFilterNoTask) (msg : M) : Bool :=
  if f.«from» = none ∧ f.«to» = none then true
  else
    (match f.«to» with
     | some t => decide (t ∈ Msg.get_to msg)
     | none => false)
    || (match f.«from» with
        | some fr => decide (Msg.get_from msg = fr)
        | none => false)

/-- `MsgFilterTrait::filter_and`: true iff all defined conditions are met. -/
def MsgFilterNoTask.filter_and {M : Type} [Msg M] (f : MsgFilterNoTask) (msg : M) : Bool :=
  if f.«from» = none ∧ f.«to» = none then true
  else
    (match f.«to» with
     | some t => decide (t ∈ Msg.get_to msg)
     | none => true)
    && (match f.«from» with
        | some fr => decide (Msg.get_from msg = fr)
        | none => true)

def MsgFilterNoTask.matches {M : Type} [Msg M] (f : MsgFilterNoTask) (msg : M) : Bool :=
  match f.mode with
  | .Or => f.filter_or msg
  | .And => f.filter_and msg

/-- `MsgFilterForTask` (serve_tasks.rs lines 596–640): the task filter used by
GET /v1/tasks, a plain from/to filter plus the `todo` restriction.  Because
`WorkStatus` variants carry no data, the discriminant list is a status list. -/
structure MsgFilterForTask where
  normal : MsgFilterNoTask
  unanswered_by : Option AppOrProxyId
  workstatus_is_not : List WorkStatus
deriving DecidableEq, Repr

/-- `MsgFilterForTask::unanswered`: with no criterion every task is unanswered;
otherwise a task is answered exactly when some stored result comes from the
criterion identity and its status is in the closed-status list. -/
def MsgFilterForTask.unanswered (f : MsgFilterForTask) (msg : EncryptedMsgTaskRequest) : Bool :=
  match f.unanswered_by with
  | none => true
  | some u =>
    !(msg.results.any (fun p =>
        decide (Msg.get_from p.2 = u) && decide (p.2.msg.status ∈ f.workstatus_is_not)))

def MsgFilterForTask.matches (f : MsgFilterForTask) (m : MsgSigned EncryptedMsgTaskRequest) :
    Bool :=
  f.normal.matches m && f.unanswered m.msg

/-! ### GET handlers (serve_tasks.rs lines 72–164 and 459–533) -/

/-- A GET handler's tagged result, carrying the response body on success. -/
inductive HandlerResult (α : Type) where
  | ok (code : Nat) (body : α)
  | err (code : Nat) (message : String)
  | panic (kind : PanicKind)
deriving DecidableEq, Repr

/-- The status code the client observes, if any: a panicking request never
produces a response. -/
def HandlerResult.clientCode {α : Type} : HandlerResult α → Option Nat
  | .ok code _ => some code
  | .err code _ => some code
  | .panic _ => none

inductive FilterParam where
  | todo
deriving DecidableEq, Repr

/-- The `TaskFilter` query parameters of GET /v1/tasks. -/
structure TaskFilter where
  «from» : Option AppOrProxyId
  «to» : Option AppOrProxyId
  filter : Option FilterParam
deriving DecidableEq, Repr

/-- The effective `to` parameter of GET /v1/tasks after the `filter=todo`
defaulting (serve_tasks.rs lines 470–478): with `filter=todo` and no `to`
supplied, `to` defaults to the caller. -/
def effTo (taskfilter : TaskFilter) (caller : AppOrProxyId) : Option AppOrProxyId :=
  match taskfilter.filter with
  | some .todo => if taskfilter.«to» = none then some caller else taskfilter.«to»
  | none => taskfilter.«to»

/-- The `unanswered_by` criterion of GET /v1/tasks: the caller when
`filter=todo` is supplied, absent otherwise. -/
def effUnansweredBy (taskfilter : TaskFilter) (caller : AppOrProxyId) :
    Option AppOrProxyId :=
  match taskfilter.filter with
  | some .todo => some caller
  | none => none

/-- The `MsgFilterForTask` built by GET /v1/tasks (serve_tasks.rs lines
494–507). -/
def taskFilterOf (taskfilter : TaskFilter) (caller : AppOrProxyId) : MsgFilterForTask :=
  { normal := { «from» := taskfilter.«from», «to» := effTo taskfilter caller, mode := .Or }
    unanswered_by := effUnansweredBy taskfilter caller
    workstatus_is_not := [WorkStatus.Succeeded, WorkStatus.PermFailed] }

/-- `get_tasks` (serve_tasks.rs lines 461–533).  `caller` is the verified
`from` identity of the signed empty message; `events` is the sequence of
select outcomes the waiter observes after taking its snapshot. -/
def get_tasks (block : HowLongToBlock) (taskfilter : TaskFilter) (s : TasksState)
    (caller : AppOrProxyId)
    (events : List (WaiterEvent (MsgSigned EncryptedMsgTaskRequest))) :
    HandlerResult (List (MsgSigned EncryptedMsgTaskRequest)) :=
  let fromP := taskfilter.«from»
  let toP := effTo taskfilter caller
  if fromP = none ∧ toP = none then
    .err 400 "Please supply either \"from\" or \"to\" query parameter."
  else if (match fromP with
           | some f => decide (f ≠ caller)
           | none => false)
          || (match toP with
              | some t => decide (t ≠ caller)
              | none => false) then
    .err 401 "You can only list messages created by you (from) or directed to you (to)."
  else
    let filter := taskFilterOf taskfilter caller
    let vec := (s.tasks.map Prod.snd).filter (fun v => filter.matches v)
    match wait_for_elements_task block (fun m => filter.matches m)
        (fun m => m.msg.id) vec events with
    | .ok v => .ok (wait_get_statuscode v block) v
    | .error k => .panic k

/-- `get_results_for_task_nostream` (serve_tasks.rs lines 103–164): 404 if the
task is unknown, 401 unless the caller issued it; then snapshot the result
map's values and, when the count threshold is not yet met, subscribe to the
task's result sender (panicking if it is missing) and run the waiter.  The
wait id of a signed task result is the sender identity, modelled from the spec
(§4.3: the dedup "is what makes result updates idempotent"); the shared
crate's `HasWaitId` impls are not under src/. -/
def get_results_for_task_nostream (block : HowLongToBlock) (task_id : MsgId)
    (caller : AppOrProxyId) (s : TasksState)
    (events : List (WaiterEvent (MsgSigned EncryptedMsgTaskResult))) :
    HandlerResult (List (MsgSigned EncryptedMsgTaskResult)) :=
  match alookup s.tasks task_id with
  | none => .err 404 "Task not found"
  | some task =>
    if task.msg.«from» ≠ caller then .err 401 "Not your task."
    else
      let filter_for_me : MsgFilterNoTask := ⟨none, some caller, .Or⟩
      let results := task.msg.results.map Prod.snd
      if would_wait_for_elements results.length block then
        if task_id ∈ s.new_result_tx then
          match wait_for_results_for_task block (fun m => filter_for_me.matches m)
              (fun m => m.msg.«from») task_id results events with
          | .ok v => .ok (wait_get_statuscode v block) v
          | .error k => .panic k
        else .panic (.noNewResultTx task_id)
      else .ok (wait_get_statuscode results block) results

/-- Modelled from the spec (§4.1): `TaskManager::wait_for_tasks` — the socket
registry's waiter, whose source (task_manager.rs) is not under src/.  Per §4.1
and §4.3 it snapshots the tasks matching the filter and runs the shared waiter
primitive. -/
def TaskManager.wait_for_tasks (block : HowLongToBlock)
    (filter : MsgSigned MsgSocketRequest → Bool)
    (tasks : List (MsgSigned MsgSocketRequest))
    (events : List (WaiterEvent (MsgSigned MsgSocketRequest))) :
    Except PanicKind (List (MsgSigned MsgSocketRequest)) :=
  wait_for_elements_task block filter (fun m => m.msg.id) (tasks.filter filter) events

/-- `get_socket_requests` (serve_sockets.rs lines 45–71): rejects with a bare
400 Bad Request when the block has neither a count nor a deadline, otherwise
lists the socket tasks addressed to the requester. -/
def get_socket_requests (block : HowLongToBlock) (caller : AppOrProxyId)
    (tasks : List (MsgSigned MsgSocketRequest))
    (events : List (WaiterEvent (MsgSigned MsgSocketRequest))) :
    HandlerResult (List (MsgSigned MsgSocketRequest)) :=
  if block.wait_count = none ∧ block.wait_time = none then
    .err 400 ""
  else
    match TaskManager.wait_for_tasks block
        (fun req => decide (caller ∈ req.msg.«to»)) tasks events with
    | .ok v => .ok 200 v
    | .error k => .panic k

/-! ### Trace observations

Helpers that read a run of the registry (a list of requests paired with their
outcomes) back into the quantities the specified properties talk about. -/

/-- How many POSTs in a run succeeded with 201 Created and the Location header
for task id `i`. -/
def createdCount (i : MsgId) : List (Op × Outcome) → Nat
  | [] => 0
  | (op, out) :: rest =>
    (match op with
     | .post m =>
       if m.msg.id = i ∧ out = .ok 201 (some ("/v1/tasks/" ++ i.toStr)) then 1 else 0
     | _ => 0) + createdCount i rest

/-- The accepted result submissions for a `(task, from)` pair in a run: every
result PUT for that pair whose response was 201 Created or 204 No Content,
paired with its status code, in request order. -/
def acceptedFor (tid : MsgId) (w : AppOrProxyId) :
    List (Op × Outcome) → List (MsgSigned EncryptedMsgTaskResult × Nat)
  | [] => []
  | (op, out) :: rest =>
    (match op, out with
     | .put t _ r, .ok c none =>
       if t = tid ∧ r.msg.«from» = w ∧ (c = 201 ∨ c = 204) then [(r, c)] else []
     | _, _ => []) ++ acceptedFor tid w rest

/-- The status codes of `n` accepted submissions into a result slot that starts
occupied or unoccupied: 201 on the first create, 204 on every replacement. -/
def codesFrom (occupied : Bool) : Nat → List Nat
  | 0 => []
  | Nat.succ k => (if occupied then 204 else 201) :: List.replicate k 204

/-- The stored result of task `tid` from worker `w` in a registry state. -/
def entryAt (s : TasksState) (tid : MsgId) (w : AppOrProxyId) :
    Option (MsgSigned EncryptedMsgTaskResult) :=
  (alookup s.tasks tid).bind (fun t => alookup t.msg.results w)

/-- The last element of a list, or the given default when the list is empty. -/
def lastOr {α : Type} (e : Option α) : List α → Option α
  | [] => e
  | x :: xs => lastOr (some x) xs

/-- Invariant: every live task id also has a result broadcast sender. -/
def keysSub (s : TasksState) : Prop :=
  ∀ k, (alookup s.tasks k).isSome = true → k ∈ s.new_result_tx

/-! ### Concrete sample data, used by witnesses and counterexamples -/

def appA : AppOrProxyId := ⟨"app1.proxy1.broker"⟩

def appB : AppOrProxyId := ⟨"app2.proxy1.broker"⟩

def appC : AppOrProxyId := ⟨"app3.proxy1.broker"⟩

def id1 : MsgId := ⟨1⟩

def id2 : MsgId := ⟨2⟩

/-- A task issued by `appA` to `{appB}`, with no results yet. -/
def task1 : MsgSigned EncryptedMsgTaskRequest :=
  ⟨⟨id1, appA, [appB], 60, "", "ciphertext", .Discard, []⟩, "sig1"⟩

/-- A result for `task1` from `appB` with status Succeeded. -/
def res1 : MsgSigned EncryptedMsgTaskResult :=
  ⟨⟨appB, [appA], id1, .Succeeded, "", some "out"⟩, "sigR1"⟩

/-- A second result for `task1` from `appB`, replacing `res1`. -/
def res2 : MsgSigned EncryptedMsgTaskResult :=
  ⟨⟨appB, [appA], id1, .PermFailed, "", some "out2"⟩, "sigR2"⟩

/-- A result from `appC` whose payload names task `id2`: its path/payload task
ids will not match on a PUT to task `id1`. -/
def resBad : MsgSigned EncryptedMsgTaskResult :=
  ⟨⟨appC, [appA], id2, .Succeeded, "", none⟩, "sigRB"⟩

/-- A result for `task1` from `appB` with a still-open status. -/
def resTemp : MsgSigned EncryptedMsgTaskResult :=
  ⟨⟨appB, [appA], id1, .TempFailed, "", none⟩, "sigRT"⟩

/-- A task issued by `appA` to `{appB}` that `appB` already answered with
Succeeded. -/
def task2 : MsgSigned EncryptedMsgTaskRequest :=
  ⟨⟨id2, appA, [appB], 60, "", "ciphertext2", .Discard,
    [(appB, ⟨⟨appB, [appA], id2, .Succeeded, "", none⟩, "sigR3"⟩)]⟩, "sig2"⟩

/-- The registry holding exactly `task1`. -/
def state1 : TasksState := (post_task emptyState task1).2

/-- The registry holding `task1` and `task2`. -/
def state2 : TasksState := (post_task state1 task2).2

/-- A still-open result for a third task from `appB`. -/
def resTemp3 : MsgSigned EncryptedMsgTaskResult :=
  ⟨⟨appB, [appA], ⟨3⟩, .TempFailed, "", none⟩, "sigR4"⟩

/-- A task issued by `appA` to `{appB}` that `appB` answered with TempFailed,
which keeps it in `appB`'s todo listing. -/
def task3 : MsgSigned EncryptedMsgTaskRequest :=
  ⟨⟨⟨3⟩, appA, [appB], 60, "", "ciphertext3", .Discard, [(appB, resTemp3)]⟩, "sig3"⟩

/-- The registry holding `task2` (answered) and `task3` (still open). -/
def state23 : TasksState := (post_task (post_task emptyState task2).2 task3).2

/-- A well-formed result for `task1` from `appC`, who is not among its
recipients. -/
def resC1 : MsgSigned EncryptedMsgTaskResult :=
  ⟨⟨appC, [appA], id1, .Succeeded, "", none⟩, "sigRC"⟩

/-! ## Theorems -/

theorem alookup_ainsert_self {K V : Type} [DecidableEq K] (l : List (K × V)) (k : K) (v : V) :
    alookup (ainsert k v l) k = some v := by
  induction l with
  | nil => simp [ainsert, alookup]
  | cons p rest ih =>
    obtain ⟨k', v'⟩ := p
    by_cases h : k' = k
    · simp [ainsert, h, alookup]
    · simp [ainsert, h, alookup, ih]

theorem alookup_ainsert_ne {K V : Type} [DecidableEq K] (l : List (K × V)) {k k' : K} (v : V)
    (h : k' ≠ k) : alookup (ainsert k v l) k' = alookup l k' := by
  induction l with
  | nil => simp [ainsert, alookup]; exact fun hc => h hc.symm
  | cons p rest ih =>
    obtain ⟨k₀, v₀⟩ := p
    by_cases hk : k₀ = k
    · subst hk
      have : k₀ ≠ k' := fun hc => h hc.symm
      simp [ainsert, alookup, this]
    · simp [ainsert, hk, alookup, ih]

theorem alookup_aerase_self {K V : Type} [DecidableEq K] (l : List (K × V)) (k : K) :
    alookup (aerase k l) k = none := by
  induction l with
  | nil => simp [aerase, alookup]
  | cons p rest ih =>
    obtain ⟨k₀, v₀⟩ := p
    by_cases hk : k₀ = k
    · simp [aerase, hk, ih]
    · simp [aerase, hk, alookup, ih]

theorem alookup_aerase_ne {K V : Type} [DecidableEq K] (l : List (K × V)) {k k' : K}
    (h : k' ≠ k) : alookup (aerase k l) k' = alookup l k' := by
  induction l with
  | nil => simp [aerase]
  | cons p rest ih =>
    obtain ⟨k₀, v₀⟩ := p
    by_cases hk : k₀ = k
    · subst hk
      have : k₀ ≠ k' := fun hc => h hc.symm
      simp [aerase, alookup, this, ih]
    · simp [aerase, hk, alookup, ih]

theorem alookup_ainsert_isSome {K V : Type} [DecidableEq K] (l : List (K × V)) (k k' : K)
    (v : V) :
    (alookup (ainsert k v l) k').isSome = true ↔ k' = k ∨ (alookup l k').isSome = true := by
  by_cases h : k' = k
  · subst h; simp [alookup_ainsert_self]
  · simp [alookup_ainsert_ne l v h, h]

theorem alookup_aerase_isSome {K V : Type} [DecidableEq K] (l : List (K × V)) (k k' : K)
    (h : (alookup (aerase k l) k').isSome = true) : (alookup l k').isSome = true := by
  by_cases hk : k' = k
  · subst hk; simp [alookup_aerase_self] at h
  · rwa [alookup_aerase_ne l hk] at h

/-- C5 (first half, shared by the handler statements below): the partial-content
code is produced exactly when the buffer is shorter than the requested count. -/
theorem wait_get_statuscode_iff {S : Type} (vec : List S) (block : HowLongToBlock) :
    (wait_get_statuscode vec block = 206 ↔ vec.length < block.wait_count.getD 0)
    ∧ (wait_get_statuscode vec block = 200 ↔ ¬ vec.length < block.wait_count.getD 0) := by
  unfold wait_get_statuscode
  split <;> rename_i h <;> constructor <;> simp [Nat.lt_iff_add_one_le] at h ⊢ <;> omega

theorem wait_for_elements_task_no_count {M : Type} (block : HowLongToBlock)
    (filter : M → Bool) (waitId : M → MsgId) (vec : List M)
    (events : List (WaiterEvent M)) (h : block.wait_count.getD 0 = 0) :
    wait_for_elements_task block filter waitId vec events = .ok vec := by
  cases events with
  | nil => rfl
  | cons e rest => simp [wait_for_elements_task, h]

theorem wait_for_results_no_count {M I : Type} [DecidableEq I] (block : HowLongToBlock)
    (filter : M → Bool) (waitId : M → I) (task_id : MsgId) (vec : List M)
    (events : List (WaiterEvent M)) (h : block.wait_count.getD 0 = 0) :
    wait_for_results_for_task block filter waitId task_id vec events = .ok vec := by
  cases events with
  | nil => rfl
  | cons e rest => simp [wait_for_results_for_task, h]

theorem wait_for_elements_task_count_none {M : Type} (wt : Option Nat)
    (filter : M → Bool) (waitId : M → MsgId) (vec : List M)
    (events : List (WaiterEvent M)) :
    wait_for_elements_task ⟨none, wt⟩ filter waitId vec events = .ok vec :=
  wait_for_elements_task_no_count _ _ _ _ _ rfl

theorem wait_for_results_count_none {M I : Type} [DecidableEq I] (wt : Option Nat)
    (filter : M → Bool) (waitId : M → I) (task_id : MsgId) (vec : List M)
    (events : List (WaiterEvent M)) :
    wait_for_results_for_task ⟨none, wt⟩ filter waitId task_id vec events = .ok vec :=
  wait_for_results_no_count _ _ _ _ _ _ rfl

/-- Any successful GET /v1/tasks response carries the code computed by
`wait_get_statuscode` from its own body. -/
theorem get_tasks_ok_code (block : HowLongToBlock) (taskfilter : TaskFilter)
    (s : TasksState) (caller : AppOrProxyId)
    (events : List (WaiterEvent (MsgSigned EncryptedMsgTaskRequest)))
    (code : Nat) (body : List (MsgSigned EncryptedMsgTaskRequest))
    (h : get_tasks block taskfilter s caller events = .ok code body) :
    code = wait_get_statuscode body block := by
  simp only [get_tasks] at h
  split at h
  · exact absurd h (by simp)
  · split at h
    · exact absurd h (by simp)
    · split at h
      · rename_i v hv
        obtain ⟨hc, hb⟩ := HandlerResult.ok.inj h
        subst hb
        exact hc.symm
      · exact absurd h (by simp)

/-- Any successful non-stream GET results response carries the code computed by
`wait_get_statuscode` from its own body. -/
theorem get_results_ok_code (block : HowLongToBlock) (task_id : MsgId)
    (caller : AppOrProxyId) (s : TasksState)
    (events : List (WaiterEvent (MsgSigned EncryptedMsgTaskResult)))
    (code : Nat) (body : List (MsgSigned EncryptedMsgTaskResult))
    (h : get_results_for_task_nostream block task_id caller s events = .ok code body) :
    code = wait_get_statuscode body block := by
  simp only [get_results_for_task_nostream] at h
  split at h
  · exact absurd h (by simp)
  · split at h
    · exact absurd h (by simp)
    · split at h
      · split at h
        · split at h
          · rename_i v hv
            obtain ⟨hc, hb⟩ := HandlerResult.ok.inj h
            subst hb
            exact hc.symm
          · exact absurd h (by simp)
        · exact absurd h (by simp)
      · obtain ⟨hc, hb⟩ := HandlerResult.ok.inj h
        subst hb
        exact hc.symm

/-- C5: for every completed long poll (GET /v1/tasks and non-stream
GET /v1/tasks/:id/results), the response status is 206 Partial Content iff the
final buffer length is strictly less than the requested wait_count (an absent
wait_count counting as 0), and 200 OK otherwise. -/
theorem c5_partial_content_iff :
    (∀ (S : Type) (vec : List S) (block : HowLongToBlock),
        (wait_get_statuscode vec block = 206 ↔ vec.length < block.wait_count.getD 0)
        ∧ (wait_get_statuscode vec block = 200 ↔ ¬ vec.length < block.wait_count.getD 0))
    ∧ (∀ block taskfilter s caller events code body,
        get_tasks block taskfilter s caller events = .ok code body →
        (code = 206 ↔ body.length < block.wait_count.getD 0)
        ∧ (code = 200 ↔ ¬ body.length < block.wait_count.getD 0))
    ∧ (∀ block task_id caller s events code body,
        get_results_for_task_nostream block task_id caller s events = .ok code body →
        (code = 206 ↔ body.length < block.wait_count.getD 0)
        ∧ (code = 200 ↔ ¬ body.length < block.wait_count.getD 0)) := by
  refine ⟨fun S vec block => wait_get_statuscode_iff vec block, ?_, ?_⟩
  · intro block taskfilter s caller events code body h
    rw [get_tasks_ok_code block taskfilter s caller events code body h]
    exact wait_get_statuscode_iff body block
  · intro block task_id caller s events code body h
    rw [get_results_ok_code block task_id caller s events code body h]
    exact wait_get_statuscode_iff body block

/-- C5 witness: a long poll for two results against the empty registry waited
out its deadline with an empty buffer and answered 206. -/
theorem c5_partial_content_iff_witness :
    get_tasks ⟨some 2, some 5⟩ ⟨some appA, none, none⟩ emptyState appA [.deadline]
      = .ok 206 []
    ∧ (206 = 206 ↔ ([] : List (MsgSigned EncryptedMsgTaskRequest)).length
        < (HowLongToBlock.mk (some 2) (some 5)).wait_count.getD 0) :=
  ⟨by decide,
   (c5_partial_content_iff.2.1 ⟨some 2, some 5⟩ ⟨some appA, none, none⟩ emptyState appA
      [.deadline] 206 [] (by decide)).1⟩

/-- C4 counterexample: a GET /v1/tasks whose block has neither wait_count nor
wait_time set is not rejected with 400 Bad Request; it returns immediately with
200 OK and the (empty) snapshot. -/
theorem c4_counterexample :
    get_tasks ⟨none, none⟩ ⟨some appA, none, none⟩ emptyState appA [] = .ok 200 []
    ∧ (get_tasks ⟨none, none⟩ ⟨some appA, none, none⟩ emptyState appA []).clientCode
      ≠ some 400 := by
  decide

/-- C4 (amended): only the socket-listing long poll rejects a block with
neither wait_count nor wait_time (400 Bad Request).  GET /v1/tasks and the
non-stream GET results accept such a block: their wait loop never runs (the
response does not depend on any waiter event) and a successful response has
status 200 OK. -/
theorem c4_block_params :
    (∀ block caller tasks events,
        block.wait_count = none → block.wait_time = none →
        get_socket_requests block caller tasks events = .err 400 "")
    ∧ (∀ taskfilter s caller events,
        get_tasks ⟨none, none⟩ taskfilter s caller events
          = get_tasks ⟨none, none⟩ taskfilter s caller []
        ∧ ∀ code body,
            get_tasks ⟨none, none⟩ taskfilter s caller events = .ok code body →
            code = 200)
    ∧ (∀ task_id s caller events,
        get_results_for_task_nostream ⟨none, none⟩ task_id caller s events
          = get_results_for_task_nostream ⟨none, none⟩ task_id caller s []
        ∧ ∀ code body,
            get_results_for_task_nostream ⟨none, none⟩ task_id caller s events
              = .ok code body →
            code = 200) := by
  refine ⟨?_, ?_, ?_⟩
  · intro block caller tasks events hc ht
    simp [get_socket_requests, hc, ht]
  · intro taskfilter s caller events
    constructor
    · simp only [get_tasks, wait_for_elements_task_count_none]
    · intro code body h
      have := get_tasks_ok_code _ _ _ _ _ _ _ h
      simpa [wait_get_statuscode] using this
  · intro task_id s caller events
    constructor
    · simp only [get_results_for_task_nostream, wait_for_results_count_none]
    · intro code body h
      have := get_results_ok_code _ _ _ _ _ _ _ h
      simpa [wait_get_statuscode] using this

/-- C4 witness for the amended statement: the socket listing with an all-absent
block answers 400, while GET /v1/tasks with the same block answers 200 even
though events arrive. -/
theorem c4_block_params_witness :
    get_socket_requests ⟨none, none⟩ appA [] [.deadline] = .err 400 ""
    ∧ get_tasks ⟨none, none⟩ ⟨some appA, none, none⟩ state1 appA [.deadline]
      = get_tasks ⟨none, none⟩ ⟨some appA, none, none⟩ state1 appA [] :=
  ⟨(c4_block_params.1 ⟨none, none⟩ appA [] [.deadline] rfl rfl),
   (c4_block_params.2.1 ⟨some appA, none, none⟩ state1 appA [.deadline]).1⟩

/-- C6 counterexample: a GET /v1/tasks supplying `from` equal to the caller but
`to` equal to a different identity is rejected with 401 Unauthorized, although
the claim says a request whose `from` equals the caller is always authorized. -/
theorem c6_counterexample :
    get_tasks ⟨none, none⟩ ⟨some appA, some appB, none⟩ emptyState appA []
      = .err 401 "You can only list messages created by you (from) or directed to you (to)."
    ∧ appA ≠ appB := by
  decide

/-- C6 (amended): GET /v1/tasks answers 401 Unauthorized exactly when some
supplied parameter differs from the caller: either `from` is supplied and is
not the caller, or the effective `to` (after the filter=todo defaulting) is
supplied and is not the caller.  The caller must match every supplied
parameter, not just one of them. -/
theorem c6_authorization_iff :
    ∀ block taskfilter s caller events,
      get_tasks block taskfilter s caller events
        = .err 401 "You can only list messages created by you (from) or directed to you (to)."
      ↔ ((∃ f, taskfilter.«from» = some f ∧ f ≠ caller)
         ∨ (∃ t, effTo taskfilter caller = some t ∧ t ≠ caller)) := by
  intro block taskfilter s caller events
  simp only [get_tasks]
  split
  · rename_i hnone
    obtain ⟨hf, ht⟩ := hnone
    simp [hf, ht]
  · split
    · rename_i hauth
      simp only [Bool.or_eq_true] at hauth
      constructor
      · intro _
        rcases hauth with hf | ht
        · left
          cases hfrom : taskfilter.«from» with
          | none => rw [hfrom] at hf; simp at hf
          | some f =>
            rw [hfrom] at hf
            simp at hf
            exact ⟨f, rfl, hf⟩
        · right
          cases hto : effTo taskfilter caller with
          | none => rw [hto] at ht; simp at ht
          | some t =>
            rw [hto] at ht
            simp at ht
            exact ⟨t, rfl, ht⟩
      · intro _; rfl
    · rename_i hauth
      simp only [Bool.or_eq_true, not_or] at hauth
      obtain ⟨hf, ht⟩ := hauth
      constructor
      · intro h
        split at h <;> exact absurd h (by simp)
      · intro h
        rcases h with ⟨f, hfe, hfne⟩ | ⟨t, hte, htne⟩
        · rw [hfe] at hf; simp at hf; exact absurd hf hfne
        · rw [hte] at ht; simp at ht; exact absurd ht htne

/-- C6 witness for the amended statement: with both parameters equal to the
caller the request is not rejected, and with `to` differing it is. -/
theorem c6_authorization_iff_witness :
    ¬ (get_tasks ⟨none, none⟩ ⟨some appA, some appA, none⟩ emptyState appA []
        = .err 401 "You can only list messages created by you (from) or directed to you (to).")
    ∧ get_tasks ⟨none, none⟩ ⟨some appB, none, none⟩ emptyState appA []
      = .err 401 "You can only list messages created by you (from) or directed to you (to)." :=
  ⟨fun h => by
      rcases (c6_authorization_iff ⟨none, none⟩ ⟨some appA, some appA, none⟩ emptyState appA []).mp h with
        ⟨f, hf, hne⟩ | ⟨t, ht, hne⟩
      · exact hne (by cases hf; rfl)
      · exact hne (by cases ht; rfl),
   (c6_authorization_iff ⟨none, none⟩ ⟨some appB, none, none⟩ emptyState appA []).mpr
     (Or.inl ⟨appB, rfl, by decide⟩)⟩

/-- C8 counterexample: a GET /v1/tasks whose waiter observes a channel receive
error panics; the client never receives a response, in particular no 500. -/
theorem c8_counterexample :
    get_tasks ⟨some 1, some 5⟩ ⟨some appA, none, none⟩ emptyState appA [.newError]
      = .panic (.channelRecv "new_element_rx")
    ∧ (get_tasks ⟨some 1, some 5⟩ ⟨some appA, none, none⟩ emptyState appA
        [.newError]).clientCode ≠ some 500 := by
  decide

/-- C8 (amended): in both waiter loops, a channel receive error while the
request is still waiting terminates it with a panic rather than a 500 response;
a panicking handler produces no client-visible status code at all. -/
theorem c8_channel_error_panics :
    (∀ (block : HowLongToBlock) (filter : MsgSigned EncryptedMsgTaskRequest → Bool)
        (waitId : MsgSigned EncryptedMsgTaskRequest → MsgId) vec rest,
        block.wait_count.getD 0 > vec.length →
        wait_for_elements_task block filter waitId vec (.newError :: rest)
          = .error (.channelRecv "new_element_rx")
        ∧ wait_for_elements_task block filter waitId vec (.deletedError :: rest)
          = .error (.channelRecv "deleted_task_rx"))
    ∧ (∀ (block : HowLongToBlock) (filter : MsgSigned EncryptedMsgTaskResult → Bool)
        (waitId : MsgSigned EncryptedMsgTaskResult → AppOrProxyId) task_id vec rest,
        block.wait_count.getD 0 > vec.length →
        wait_for_results_for_task block filter waitId task_id vec (.newError :: rest)
          = .error (.channelRecv "new_result_rx")
        ∧ wait_for_results_for_task block filter waitId task_id vec (.deletedError :: rest)
          = .error (.channelRecv "deleted_task_rx"))
    ∧ (∀ (k : PanicKind),
        (HandlerResult.panic k : HandlerResult (List (MsgSigned EncryptedMsgTaskRequest))).clientCode
          = none) := by
  refine ⟨?_, ?_, fun k => rfl⟩
  · intro block filter waitId vec rest h
    constructor <;> simp [wait_for_elements_task, h]
  · intro block filter waitId task_id vec rest h
    constructor <;> simp [wait_for_results_for_task, h]

/-- C8 witness for the amended statement: a waiter expecting one element that
sees a channel error panics instead of answering. -/
theorem c8_channel_error_panics_witness :
    wait_for_elements_task ⟨some 1, some 5⟩ (fun _ => true) (fun m => m.msg.id)
      ([] : List (MsgSigned EncryptedMsgTaskRequest)) [.newError]
      = .error (.channelRecv "new_element_rx") :=
  (c8_channel_error_panics.1 ⟨some 1, some 5⟩ (fun _ => true) (fun m => m.msg.id) [] []
    (by decide)).1

theorem nodup_dedup_append {M I : Type} [DecidableEq I] (waitId : M → I) (vec : List M)
    (m : M) (h : (vec.map waitId).Nodup) :
    (((vec.filter (fun el => decide (waitId el ≠ waitId m))) ++ [m]).map waitId).Nodup := by
  rw [List.map_append, List.nodup_append]
  refine ⟨h.sublist ((List.filter_sublist vec).map waitId), by simp, ?_⟩
  intro x hx hm
  simp only [List.map_cons, List.map_nil, List.mem_singleton] at hm
  subst hm
  simp only [List.mem_map, List.mem_filter, decide_eq_true_eq] at hx
  obtain ⟨el, ⟨_, hne⟩, hel⟩ := hx
  exact hne hel

theorem nodup_filter_map {M I : Type} (waitId : M → I) (p : M → Bool) (vec : List M)
    (h : (vec.map waitId).Nodup) : ((vec.filter p).map waitId).Nodup :=
  h.sublist ((List.filter_sublist vec).map waitId)

/-- Buffer dedup invariant for the task-listing waiter: if the initial buffer
has pairwise-distinct wait ids, so does any buffer the loop returns. -/
theorem wait_task_nodup_aux {M : Type} (block : HowLongToBlock) (filter : M → Bool)
    (waitId : M → MsgId) :
    ∀ (events : List (WaiterEvent M)) (vec : List M), (vec.map waitId).Nodup →
      ∀ out, wait_for_elements_task block filter waitId vec events = .ok out →
        (out.map waitId).Nodup := by
  intro events
  induction events with
  | nil =>
    intro vec h out hout
    cases Except.ok.inj hout
    exact h
  | cons e rest ih =>
    intro vec h out hout
    simp only [wait_for_elements_task] at hout
    split at hout
    · split at hout
      · cases Except.ok.inj hout
        exact h
      · rename_i m
        split at hout
        · exact ih _ (nodup_dedup_append waitId vec m h) out hout
        · exact ih vec h out hout
      · exact ih _ (nodup_filter_map waitId _ vec h) out hout
      · exact absurd hout (by simp)
      · exact absurd hout (by simp)
    · cases Except.ok.inj hout
      exact h

/-- Buffer dedup invariant for the result-waiting waiter. -/
theorem wait_results_nodup_aux {M I : Type} [DecidableEq I] (block : HowLongToBlock)
    (filter : M → Bool) (waitId : M → I) (task_id : MsgId) :
    ∀ (events : List (WaiterEvent M)) (vec : List M), (vec.map waitId).Nodup →
      ∀ out, wait_for_results_for_task block filter waitId task_id vec events = .ok out →
        (out.map waitId).Nodup := by
  intro events
  induction events with
  | nil =>
    intro vec h out hout
    cases Except.ok.inj hout
    exact h
  | cons e rest ih =>
    intro vec h out hout
    simp only [wait_for_results_for_task] at hout
    split at hout
    · split at hout
      · cases Except.ok.inj hout
        exact h
      · rename_i m
        split at hout
        · exact ih _ (nodup_dedup_append waitId vec m h) out hout
        · exact ih vec h out hout
      · split at hout
        · cases Except.ok.inj hout
          exact h
        · exact ih vec h out hout
      · exact absurd hout (by simp)
      · exact absurd hout (by simp)
    · cases Except.ok.inj hout
      exact h

/-- C9: in both waiter loops a matching new item replaces any buffered item
with the same wait id (removal happens before the append), and consequently a
buffer that starts with pairwise-distinct wait ids — in particular, any
returned collection — never holds two elements with the same wait id. -/
theorem c9_waiter_dedup :
    (∀ (M : Type) (block : HowLongToBlock) (filter : M → Bool) (waitId : M → MsgId)
        (vec : List M) (m : M) rest,
        block.wait_count.getD 0 > vec.length → filter m = true →
        wait_for_elements_task block filter waitId vec (.newItem m :: rest)
          = wait_for_elements_task block filter waitId
              (vec.filter (fun el => decide (waitId el ≠ waitId m)) ++ [m]) rest)
    ∧ (∀ (M I : Type) (_inst : DecidableEq I) (block : HowLongToBlock) (filter : M → Bool)
        (waitId : M → I) (task_id : MsgId) (vec : List M) (m : M) rest,
        block.wait_count.getD 0 > vec.length → filter m = true →
        wait_for_results_for_task block filter waitId task_id vec (.newItem m :: rest)
          = wait_for_results_for_task block filter waitId task_id
              (vec.filter (fun el => decide (waitId el ≠ waitId m)) ++ [m]) rest)
    ∧ (∀ (M : Type) (block : HowLongToBlock) (filter : M → Bool) (waitId : M → MsgId)
        events vec out, (vec.map waitId).Nodup →
        wait_for_elements_task block filter waitId vec events = .ok out →
        (out.map waitId).Nodup)
    ∧ (∀ (M I : Type) (_inst : DecidableEq I) (block : HowLongToBlock) (filter : M → Bool)
        (waitId : M → I) (task_id : MsgId) events vec out, (vec.map waitId).Nodup →
        wait_for_results_for_task block filter waitId task_id vec events = .ok out →
        (out.map waitId).Nodup) := by
  refine ⟨?_, ?_, ?_, ?_⟩
  · intro M block filter waitId vec m rest hguard hf
    rw [wait_for_elements_task, if_pos hguard]
    simp [hf]
  · intro M I _inst block filter waitId task_id vec m rest hguard hf
    rw [wait_for_results_for_task, if_pos hguard]
    simp [hf]
  · intro M block filter waitId events vec out h hout
    exact wait_task_nodup_aux block filter waitId events vec h out hout
  · intro M I _inst block filter waitId task_id events vec out h hout
    exact wait_results_nodup_aux block filter waitId task_id events vec h out hout

/-- C9 witness: a waiter holding `task1` that receives matching `task2` returns
a buffer whose wait ids are pairwise distinct. -/
theorem c9_waiter_dedup_witness :
    (([task1, task2].map (fun m => m.msg.id)).Nodup) :=
  c9_waiter_dedup.2.2.1 (MsgSigned EncryptedMsgTaskRequest) ⟨some 2, none⟩ (fun _ => true)
    (fun m => m.msg.id) [.newItem task2] [task1] [task1, task2] (by decide) rfl

/-- Elements of a buffer returned by the task-listing waiter satisfy any
property implied by the filter, provided the initial buffer did. -/
theorem wait_task_all_aux {M : Type} (block : HowLongToBlock) (filter : M → Bool)
    (waitId : M → MsgId) (p : M → Prop) (hf : ∀ m, filter m = true → p m) :
    ∀ (events : List (WaiterEvent M)) (vec : List M), (∀ x ∈ vec, p x) →
      ∀ out, wait_for_elements_task block filter waitId vec events = .ok out →
        ∀ x ∈ out, p x := by
  intro events
  induction events with
  | nil =>
    intro vec h out hout
    cases Except.ok.inj hout
    exact h
  | cons e rest ih =>
    intro vec h out hout
    simp only [wait_for_elements_task] at hout
    split at hout
    · split at hout
      · cases Except.ok.inj hout
        exact h
      · rename_i m
        split at hout
        · rename_i hfm
          refine ih _ ?_ out hout
          intro x hx
          rcases List.mem_append.mp hx with hx | hx
          · exact h x (List.mem_filter.mp hx).1
          · rw [List.mem_singleton.mp hx]
            exact hf m hfm
        · exact ih vec h out hout
      · refine ih _ ?_ out hout
        intro x hx
        exact h x (List.mem_filter.mp hx).1
      · exact absurd hout (by simp)
      · exact absurd hout (by simp)
    · cases Except.ok.inj hout
      exact h

/-- Every task in a successful GET /v1/tasks body matches the filter the
handler built from the query parameters. -/
theorem get_tasks_ok_body_matches (block : HowLongToBlock) (taskfilter : TaskFilter)
    (s : TasksState) (caller : AppOrProxyId)
    (events : List (WaiterEvent (MsgSigned EncryptedMsgTaskRequest)))
    (code : Nat) (body : List (MsgSigned EncryptedMsgTaskRequest))
    (h : get_tasks block taskfilter s caller events = .ok code body) :
    ∀ m ∈ body, (taskFilterOf taskfilter caller).matches m = true := by
  simp only [get_tasks] at h
  split at h
  · exact absurd h (by simp)
  · split at h
    · exact absurd h (by simp)
    · split at h
      · rename_i v hv
        obtain ⟨hc, hb⟩ := HandlerResult.ok.inj h
        subst hb
        intro m hm
        refine wait_task_all_aux block _ _
          (fun m => (taskFilterOf taskfilter caller).matches m = true)
          (fun m hm => hm) events _ ?_ v hv m hm
        intro x hx
        exact (List.mem_filter.mp hx).2
      · exact absurd h (by simp)

/-- C7: with filter=todo, an absent `to` defaults to the caller, the
unanswered-by criterion is the caller, and every returned task has no stored
result from the caller whose status is Succeeded or PermFailed — a task with no
result from the caller, or one whose result is Claimed or TempFailed, may
remain. -/
theorem c7_todo_filter :
    (∀ taskfilter (caller : AppOrProxyId), taskfilter.filter = some .todo →
        effUnansweredBy taskfilter caller = some caller
        ∧ (taskfilter.«to» = none → effTo taskfilter caller = some caller))
    ∧ (∀ block taskfilter s caller events code body,
        taskfilter.filter = some .todo →
        get_tasks block taskfilter s caller events = .ok code body →
        ∀ m ∈ body, ∀ p ∈ m.msg.results, p.2.msg.«from» = caller →
          p.2.msg.status ≠ .Succeeded ∧ p.2.msg.status ≠ .PermFailed) := by
  constructor
  · intro taskfilter caller htodo
    constructor
    · simp [effUnansweredBy, htodo]
    · intro hto
      simp [effTo, htodo, hto]
  · intro block taskfilter s caller events code body htodo h m hm p hp hfrom
    have hmatch := get_tasks_ok_body_matches block taskfilter s caller events code body h m hm
    have hun : (taskFilterOf taskfilter caller).unanswered m.msg = true :=
      (Bool.and_eq_true _ _ |>.mp hmatch).2
    simp only [MsgFilterForTask.unanswered, taskFilterOf, effUnansweredBy, htodo] at hun
    rw [Bool.not_eq_true', List.any_eq_false] at hun
    have hnot := hun p hp
    simp only [Bool.and_eq_true, decide_eq_true_eq, not_and] at hnot
    have hmem := hnot hfrom
    simp only [List.mem_cons, List.not_mem_nil, or_false, not_or] at hmem
    exact hmem

/-- C7 witness: `appB`'s todo listing over a registry holding an answered task
and a TempFailed-answered task keeps only the latter, whose stored result from
`appB` is neither Succeeded nor PermFailed. -/
theorem c7_todo_filter_witness :
    effUnansweredBy ⟨none, none, some .todo⟩ appB = some appB
    ∧ get_tasks ⟨none, none⟩ ⟨none, none, some .todo⟩ state23 appB [] = .ok 200 [task3]
    ∧ (resTemp3.msg.status ≠ .Succeeded ∧ resTemp3.msg.status ≠ .PermFailed) :=
  ⟨(c7_todo_filter.1 ⟨none, none, some .todo⟩ appB rfl).1,
   by decide,
   c7_todo_filter.2 ⟨none, none⟩ ⟨none, none, some .todo⟩ state23 appB [] 200 [task3]
     rfl (by decide) task3 (by decide) (appB, resTemp3) (by decide) (by decide)⟩

/-- C3 counterexample: a PUT on the live task `task1` whose sender `appC` is
not in the task's `to` set, but whose payload names a different task id than
the path, is answered 400 Bad Request — not 401 — because the id check runs
first.  The state is unchanged either way. -/
theorem c3_counterexample :
    (alookup state1.tasks id1).isSome = true
    ∧ resBad.msg.«from» ∉ task1.msg.«to»
    ∧ put_result state1 id1 appC resBad
      = (.err 400 "Task IDs supplied in path and payload do not match.", state1) := by
  decide

theorem put_result_unauthorized (s : TasksState) (task_id : MsgId) (app_id : AppOrProxyId)
    (result : MsgSigned EncryptedMsgTaskResult) (task : MsgSigned EncryptedMsgTaskRequest)
    (hid : task_id = result.msg.task) (happ : app_id = result.msg.«from»)
    (htask : alookup s.tasks task_id = some task)
    (hto : result.msg.«from» ∉ task.msg.«to») :
    put_result s task_id app_id result
      = (.err 401 "Your result is not requested for this task.", s) := by
  subst hid
  subst happ
  simp [put_result, htask, hto]

/-- C3 (amended): a PUT on a live task whose path/payload task ids and app ids
match, and whose sender is not in the task's `to` set, is answered 401
Unauthorized and leaves the registry state unchanged. -/
theorem c3_unauthorized_put (s : TasksState) (task_id : MsgId) (app_id : AppOrProxyId)
    (result : MsgSigned EncryptedMsgTaskResult) (task : MsgSigned EncryptedMsgTaskRequest)
    (hid : task_id = result.msg.task) (happ : app_id = result.msg.«from»)
    (htask : alookup s.tasks task_id = some task)
    (hto : result.msg.«from» ∉ task.msg.«to») :
    put_result s task_id app_id result
      = (.err 401 "Your result is not requested for this task.", s) :=
  put_result_unauthorized s task_id app_id result task hid happ htask hto

/-- C3 witness for the amended statement: `appC` PUTs a matching result on
`task1` and is rejected with 401, with the registry unchanged. -/
theorem c3_unauthorized_put_witness :
    put_result state1 id1 appC resC1
      = (.err 401 "Your result is not requested for this task.", state1) :=
  c3_unauthorized_put state1 id1 appC resC1 task1 rfl rfl (by decide) (by decide)

/-! ### POST behaviour and the id-uniqueness property (C1) -/

theorem post_task_conflict (s : TasksState) (m : MsgSigned EncryptedMsgTaskRequest)
    (h : (alookup s.tasks m.msg.id).isSome = true) :
    post_task s m = (.err 409 ("ID " ++ m.msg.id.toStr ++ " is already taken."), s) := by
  simp [post_task, h]

theorem post_task_fresh (s : TasksState) (m : MsgSigned EncryptedMsgTaskRequest)
    (h : (alookup s.tasks m.msg.id).isSome = false) :
    post_task s m
      = (.ok 201 (some ("/v1/tasks/" ++ m.msg.id.toStr)),
         { tasks := ainsert m.msg.id m s.tasks,
           new_result_tx :=
             if m.msg.id ∈ s.new_result_tx then s.new_result_tx
             else m.msg.id :: s.new_result_tx }) := by
  simp [post_task, h]

theorem post_preserves_some (s : TasksState) (m : MsgSigned EncryptedMsgTaskRequest)
    (i : MsgId) (h : (alookup s.tasks i).isSome = true) :
    (alookup (post_task s m).2.tasks i).isSome = true := by
  by_cases hc : (alookup s.tasks m.msg.id).isSome = true
  · rw [post_task_conflict s m hc]
    exact h
  · rw [post_task_fresh s m (by simpa using hc)]
    exact (alookup_ainsert_isSome s.tasks m.msg.id i m).mpr (Or.inr h)

theorem execPosts_preserves_some (posts : List (MsgSigned EncryptedMsgTaskRequest)) :
    ∀ (s : TasksState) (i : MsgId), (alookup s.tasks i).isSome = true →
      (alookup (execOps s (posts.map Op.post)).tasks i).isSome = true := by
  induction posts with
  | nil => intro s i h; exact h
  | cons m rest ih =>
    intro s i h
    simp only [List.map_cons, execOps, stepOp]
    exact ih _ i (post_preserves_some s m i h)

theorem execPosts_creates (posts : List (MsgSigned EncryptedMsgTaskRequest)) :
    ∀ (s : TasksState) (i : MsgId) m', m' ∈ posts → m'.msg.id = i →
      (alookup (execOps s (posts.map Op.post)).tasks i).isSome = true := by
  induction posts with
  | nil => intro s i m' h; exact absurd h (List.not_mem_nil m')
  | cons m rest ih =>
    intro s i m' hmem hid
    simp only [List.map_cons, execOps, stepOp]
    rcases List.mem_cons.mp hmem with hm | hm
    · subst hm
      refine execPosts_preserves_some rest _ i ?_
      by_cases hc : (alookup s.tasks m'.msg.id).isSome = true
      · rw [post_task_conflict s m' hc, ← hid]
        exact hc
      · rw [post_task_fresh s m' (by simpa using hc)]
        subst hid
        simp [alookup_ainsert_self]
    · exact ih _ i m' hm hid

theorem createdCount_taken (posts : List (MsgSigned EncryptedMsgTaskRequest)) :
    ∀ (s : TasksState) (i : MsgId), (alookup s.tasks i).isSome = true →
      createdCount i (runPairs s (posts.map Op.post)) = 0 := by
  induction posts with
  | nil => intro s i h; rfl
  | cons m rest ih =>
    intro s i h
    simp only [List.map_cons, runPairs, stepOp, createdCount]
    by_cases hc : (alookup s.tasks m.msg.id).isSome = true
    · simp only [post_task_conflict s m hc]
      rw [if_neg (by simp)]
      simpa using ih s i h
    · simp only [post_task_fresh s m (by simpa using hc)]
      have hid : ¬ m.msg.id = i := by
        intro hid
        rw [hid] at hc
        exact hc h
      rw [if_neg (by intro hand; exact hid hand.1)]
      have h' : (alookup (ainsert m.msg.id m s.tasks) i).isSome = true := by
        rw [alookup_ainsert_ne s.tasks m (fun hc' => hid hc'.symm)]
        exact h
      simpa using ih _ i h'

theorem createdCount_fresh (posts : List (MsgSigned EncryptedMsgTaskRequest)) :
    ∀ (s : TasksState) (i : MsgId), alookup s.tasks i = none →
      (∃ m ∈ posts, m.msg.id = i) →
      createdCount i (runPairs s (posts.map Op.post)) = 1 := by
  induction posts with
  | nil =>
    rintro s i h ⟨m, hm, _⟩
    exact absurd hm (List.not_mem_nil m)
  | cons m rest ih =>
    intro s i h hex
    simp only [List.map_cons, runPairs, stepOp, createdCount]
    by_cases hid : m.msg.id = i
    · have hc : (alookup s.tasks m.msg.id).isSome = false := by
        rw [hid, h]; rfl
      simp only [post_task_fresh s m hc]
      rw [if_pos ⟨hid, by rw [hid]⟩]
      have hz : createdCount i (runPairs
          { tasks := ainsert m.msg.id m s.tasks,
            new_result_tx :=
              if m.msg.id ∈ s.new_result_tx then s.new_result_tx
              else m.msg.id :: s.new_result_tx } (rest.map Op.post)) = 0 := by
        refine createdCount_taken rest _ i ?_
        subst hid
        simp [alookup_ainsert_self]
      omega
    · rcases hex with ⟨m', hm', hid'⟩
      have hm'' : m' ∈ rest := by
        rcases List.mem_cons.mp hm' with hm' | hm'
        · exact absurd hid' (by rw [hm']; exact hid)
        · exact hm'
      by_cases hc : (alookup s.tasks m.msg.id).isSome = true
      · simp only [post_task_conflict s m hc]
        rw [if_neg (by simp)]
        simpa using ih s i h ⟨m', hm'', hid'⟩
      · simp only [post_task_fresh s m (by simpa using hc)]
        rw [if_neg (by intro hand; exact hid hand.1)]
        have h' : alookup (ainsert m.msg.id m s.tasks) i = none := by
          rw [alookup_ainsert_ne s.tasks m (fun hc' => hid hc'.symm)]
          exact h
        simpa using ih _ i h' ⟨m', hm'', hid'⟩

/-- C1: over any sequence of POST /v1/tasks requests in which a task id `i`
appears at least twice, exactly one POST succeeds with 201 Created and the
Location header `/v1/tasks/{i}`, and every POST of `i` that follows an earlier
POST of `i` is answered 409 Conflict and leaves the whole registry state — in
particular the stored task for `i` — unchanged. -/
theorem c1_post_id_unique (posts : List (MsgSigned EncryptedMsgTaskRequest)) (i : MsgId)
    (h2 : 2 ≤ (posts.filter (fun m => decide (m.msg.id = i))).length) :
    createdCount i (runPairs emptyState (posts.map Op.post)) = 1
    ∧ ∀ pre m post, posts = pre ++ m :: post → m.msg.id = i →
        (∃ m₀ ∈ pre, m₀.msg.id = i) →
        post_task (execOps emptyState (pre.map Op.post)) m
          = (.err 409 ("ID " ++ i.toStr ++ " is already taken."),
             execOps emptyState (pre.map Op.post)) := by
  constructor
  · have hpos : 0 < (posts.filter (fun m => decide (m.msg.id = i))).length := by omega
    obtain ⟨m, hm⟩ := List.exists_mem_of_length_pos hpos
    have hmem := List.mem_filter.mp hm
    exact createdCount_fresh posts emptyState i rfl
      ⟨m, hmem.1, by simpa using hmem.2⟩
  · rintro pre m post heq hid ⟨m₀, hmem, hid0⟩
    have hsome := execPosts_creates pre emptyState i m₀ hmem hid0
    rw [← hid]
    exact post_task_conflict _ m (by rw [hid]; exact hsome)

/-- C1 witness: posting `task1` twice, the first POST is the unique 201 and the
second is answered 409 with the state unchanged. -/
theorem c1_post_id_unique_witness :
    createdCount id1 (runPairs emptyState ([task1, task1].map Op.post)) = 1
    ∧ post_task (execOps emptyState ([task1].map Op.post)) task1
      = (.err 409 ("ID " ++ id1.toStr ++ " is already taken."),
         execOps emptyState ([task1].map Op.post)) :=
  ⟨(c1_post_id_unique [task1, task1] id1 (by decide)).1,
   (c1_post_id_unique [task1, task1] id1 (by decide)).2 [task1] task1 [] rfl rfl
     ⟨task1, by decide, rfl⟩⟩

/-! ### PUT behaviour, the sender-map invariant (C10) and result idempotence (C2) -/

theorem put_result_id_mismatch (s : TasksState) (tid : MsgId) (app : AppOrProxyId)
    (r : MsgSigned EncryptedMsgTaskResult) (h : tid ≠ r.msg.task) :
    put_result s tid app r
      = (.err 400 "Task IDs supplied in path and payload do not match.", s) := by
  simp [put_result, h]

theorem put_result_app_mismatch (s : TasksState) (tid : MsgId) (app : AppOrProxyId)
    (r : MsgSigned EncryptedMsgTaskResult) (h1 : tid = r.msg.task)
    (h2 : app ≠ r.msg.«from») :
    put_result s tid app r
      = (.err 400 "AppID supplied in URL and signed message do not match.", s) := by
  subst h1
  simp [put_result, h2]

theorem put_result_not_found (s : TasksState) (tid : MsgId) (app : AppOrProxyId)
    (r : MsgSigned EncryptedMsgTaskResult) (h1 : tid = r.msg.task)
    (h2 : app = r.msg.«from») (h3 : alookup s.tasks tid = none) :
    put_result s tid app r = (.err 404 "Task not found", s) := by
  subst h1
  subst h2
  simp [put_result, h3]

/-- The updated state written by an accepted (or sender-panicking) PUT. -/
def putUpdatedState (s : TasksState) (tid : MsgId) (r : MsgSigned EncryptedMsgTaskResult)
    (task : MsgSigned EncryptedMsgTaskRequest) : TasksState :=
  let task' : MsgSigned EncryptedMsgTaskRequest :=
    { task with msg := { task.msg with results := ainsert r.msg.«from» r task.msg.results } }
  { s with tasks := ainsert tid task' s.tasks }

theorem put_result_accept (s : TasksState) (tid : MsgId) (app : AppOrProxyId)
    (r : MsgSigned EncryptedMsgTaskResult) (task : MsgSigned EncryptedMsgTaskRequest)
    (h1 : tid = r.msg.task) (h2 : app = r.msg.«from»)
    (htask : alookup s.tasks tid = some task) (hto : r.msg.«from» ∈ task.msg.«to»)
    (htx : tid ∈ s.new_result_tx) :
    put_result s tid app r
      = (.ok (match alookup task.msg.results r.msg.«from» with
              | some _ => 204
              | none => 201) none,
         putUpdatedState s tid r task) := by
  subst h1
  subst h2
  simp [put_result, htask, hto, htx, putUpdatedState]

theorem put_result_accept_panic (s : TasksState) (tid : MsgId) (app : AppOrProxyId)
    (r : MsgSigned EncryptedMsgTaskResult) (task : MsgSigned EncryptedMsgTaskRequest)
    (h1 : tid = r.msg.task) (h2 : app = r.msg.«from»)
    (htask : alookup s.tasks tid = some task) (hto : r.msg.«from» ∈ task.msg.«to»)
    (htx : tid ∉ s.new_result_tx) :
    put_result s tid app r
      = (.panic (.noResultTx tid), putUpdatedState s tid r task) := by
  subst h1
  subst h2
  simp [put_result, htask, hto, htx, putUpdatedState]

theorem put_result_accept_new (s : TasksState) (tid : MsgId) (app : AppOrProxyId)
    (r : MsgSigned EncryptedMsgTaskResult) (task : MsgSigned EncryptedMsgTaskRequest)
    (h1 : tid = r.msg.task) (h2 : app = r.msg.«from»)
    (htask : alookup s.tasks tid = some task) (hto : r.msg.«from» ∈ task.msg.«to»)
    (htx : tid ∈ s.new_result_tx)
    (hprev : alookup task.msg.results r.msg.«from» = none) :
    put_result s tid app r = (.ok 201 none, putUpdatedState s tid r task) := by
  rw [put_result_accept s tid app r task h1 h2 htask hto htx, hprev]

theorem put_result_accept_replace (s : TasksState) (tid : MsgId) (app : AppOrProxyId)
    (r : MsgSigned EncryptedMsgTaskResult) (task : MsgSigned EncryptedMsgTaskRequest)
    (prev : MsgSigned EncryptedMsgTaskResult)
    (h1 : tid = r.msg.task) (h2 : app = r.msg.«from»)
    (htask : alookup s.tasks tid = some task) (hto : r.msg.«from» ∈ task.msg.«to»)
    (htx : tid ∈ s.new_result_tx)
    (hprev : alookup task.msg.results r.msg.«from» = some prev) :
    put_result s tid app r = (.ok 204 none, putUpdatedState s tid r task) := by
  rw [put_result_accept s tid app r task h1 h2 htask hto htx, hprev]

theorem keysSub_post (s : TasksState) (m : MsgSigned EncryptedMsgTaskRequest)
    (h : keysSub s) : keysSub (post_task s m).2 := by
  by_cases hc : (alookup s.tasks m.msg.id).isSome = true
  · rw [post_task_conflict s m hc]
    exact h
  · rw [post_task_fresh s m (by simpa using hc)]
    intro k hk
    simp only at hk ⊢
    rcases (alookup_ainsert_isSome s.tasks m.msg.id k m).mp hk with hk | hk
    · subst hk
      by_cases hmem : m.msg.id ∈ s.new_result_tx
      · simp [hmem]
      · simp [hmem]
    · have hmem := h k hk
      by_cases hmem' : m.msg.id ∈ s.new_result_tx
      · simp [hmem', hmem]
      · simp [hmem', hmem]

theorem keysSub_put (s : TasksState) (tid : MsgId) (app : AppOrProxyId)
    (r : MsgSigned EncryptedMsgTaskResult) (h : keysSub s) :
    keysSub (put_result s tid app r).2 := by
  by_cases h1 : tid = r.msg.task
  · by_cases h2 : app = r.msg.«from»
    · cases htask : alookup s.tasks tid with
      | none =>
        rw [put_result_not_found s tid app r h1 h2 htask]
        exact h
      | some task =>
        by_cases hto : r.msg.«from» ∈ task.msg.«to»
        · have hsub : keysSub (putUpdatedState s tid r task) := by
            intro k hk
            simp only [putUpdatedState] at hk ⊢
            rcases (alookup_ainsert_isSome s.tasks tid k _).mp hk with hk | hk
            · subst hk
              exact h k (by simp [htask])
            · exact h k hk
          by_cases htx : tid ∈ s.new_result_tx
          · rw [put_result_accept s tid app r task h1 h2 htask hto htx]
            exact hsub
          · rw [put_result_accept_panic s tid app r task h1 h2 htask hto htx]
            exact hsub
        · rw [put_result_unauthorized s tid app r task h1 h2 htask hto]
          exact h
    · rw [put_result_app_mismatch s tid app r h1 h2]
      exact h
  · rw [put_result_id_mismatch s tid app r h1]
    exact h

theorem keysSub_expire (s : TasksState) (t : MsgId) (h : keysSub s) :
    keysSub (remove_task s t).2 := by
  intro k hk
  exact h k (alookup_aerase_isSome s.tasks t k hk)

theorem keysSub_step (s : TasksState) (op : Op) (h : keysSub s) : keysSub (stepOp s op).2 := by
  cases op with
  | post m => exact keysSub_post s m h
  | put tid app r => exact keysSub_put s tid app r h
  | expire t => exact keysSub_expire s t h

theorem keysSub_exec (ops : List Op) : ∀ s : TasksState, keysSub s →
    keysSub (execOps s ops) := by
  induction ops with
  | nil => intro s h; exact h
  | cons op rest ih =>
    intro s h
    exact ih _ (keysSub_step s op h)

theorem put_no_panic (s : TasksState) (tid : MsgId) (app : AppOrProxyId)
    (r : MsgSigned EncryptedMsgTaskResult) (h : keysSub s) (k : PanicKind) :
    (put_result s tid app r).1 ≠ .panic k := by
  by_cases h1 : tid = r.msg.task
  · by_cases h2 : app = r.msg.«from»
    · cases htask : alookup s.tasks tid with
      | none =>
        rw [put_result_not_found s tid app r h1 h2 htask]
        simp
      | some task =>
        by_cases hto : r.msg.«from» ∈ task.msg.«to»
        · have htx : tid ∈ s.new_result_tx := h tid (by simp [htask])
          rw [put_result_accept s tid app r task h1 h2 htask hto htx]
          simp
        · rw [put_result_unauthorized s tid app r task h1 h2 htask hto]
          simp
    · rw [put_result_app_mismatch s tid app r h1 h2]
      simp
  · rw [put_result_id_mismatch s tid app r h1]
    simp

/-- The result-waiting loop only ever fails with a channel receive panic. -/
theorem wait_results_error_channel {M I : Type} [DecidableEq I] (block : HowLongToBlock)
    (filter : M → Bool) (waitId : M → I) (task_id : MsgId) :
    ∀ (events : List (WaiterEvent M)) (vec : List M) (k : PanicKind),
      wait_for_results_for_task block filter waitId task_id vec events = .error k →
      ∃ ch, k = .channelRecv ch := by
  intro events
  induction events with
  | nil =>
    intro vec k h
    exact absurd h (by simp [wait_for_results_for_task])
  | cons e rest ih =>
    intro vec k h
    simp only [wait_for_results_for_task] at h
    split at h
    · split at h
      · exact absurd h (by simp)
      · split at h
        · exact ih _ k h
        · exact ih _ k h
      · split at h
        · exact absurd h (by simp)
        · exact ih _ k h
      · exact ⟨"new_result_rx", (Except.error.inj h).symm⟩
      · exact ⟨"deleted_task_rx", (Except.error.inj h).symm⟩
    · exact absurd h (by simp)

theorem get_results_no_lookup_panic (block : HowLongToBlock) (tid : MsgId)
    (caller : AppOrProxyId) (s : TasksState)
    (events : List (WaiterEvent (MsgSigned EncryptedMsgTaskResult))) (t' : MsgId)
    (h : keysSub s) :
    get_results_for_task_nostream block tid caller s events ≠ .panic (.noNewResultTx t') := by
  simp only [get_results_for_task_nostream]
  split
  · simp
  · rename_i task htask
    split
    · simp
    · split
      · split
        · split
          · simp
          · rename_i k hk
            obtain ⟨ch, hch⟩ := wait_results_error_channel block _ _ tid events _ k hk
            subst hch
            simp
        · rename_i htx
          exact absurd (h tid (by simp [htask])) htx
      · simp

/-- C10: in every reachable state of the task exchange, every live task id has
a result broadcast sender (post inserts both under the write locks, results
replacement keeps both, and expiry only shrinks the task map); consequently
the sender lookups performed by put_result and by the non-stream results
handler never hit their panic branches. -/
theorem c10_result_tx_invariant :
    ∀ ops : List Op,
      keysSub (execOps emptyState ops)
      ∧ (∀ tid app r k, (put_result (execOps emptyState ops) tid app r).1 ≠ .panic k)
      ∧ (∀ block tid caller events t',
          get_results_for_task_nostream block tid caller (execOps emptyState ops) events
            ≠ .panic (.noNewResultTx t')) := by
  intro ops
  have hk : keysSub (execOps emptyState ops) :=
    keysSub_exec ops emptyState (fun k h => absurd h (by simp [emptyState, alookup]))
  exact ⟨hk,
    fun tid app r k => put_no_panic _ tid app r hk k,
    fun block tid caller events t' =>
      get_results_no_lookup_panic block tid caller _ events t' hk⟩

/-- C10 witness: after posting `task1` and expiring the unrelated id `id2`, a
PUT of `res1` does not hit the missing-sender panic. -/
theorem c10_result_tx_invariant_witness :
    (put_result (execOps emptyState [Op.post task1, Op.expire id2]) id1 appB res1).1
      ≠ .panic (.noResultTx id1) :=
  (c10_result_tx_invariant [Op.post task1, Op.expire id2]).2.1 id1 appB res1
    (.noResultTx id1)

theorem acceptedFor_post_cons (tid : MsgId) (w : AppOrProxyId)
    (m : MsgSigned EncryptedMsgTaskRequest) (o : Outcome) (ps : List (Op × Outcome)) :
    acceptedFor tid w ((Op.post m, o) :: ps) = acceptedFor tid w ps := by
  simp [acceptedFor]

theorem acceptedFor_expire_cons (tid : MsgId) (w : AppOrProxyId) (t : MsgId) (o : Outcome)
    (ps : List (Op × Outcome)) :
    acceptedFor tid w ((Op.expire t, o) :: ps) = acceptedFor tid w ps := by
  simp [acceptedFor]

theorem acceptedFor_put_err_cons (tid : MsgId) (w : AppOrProxyId) (t : MsgId)
    (a : AppOrProxyId) (r : MsgSigned EncryptedMsgTaskResult) (c : Nat) (msg : String)
    (ps : List (Op × Outcome)) :
    acceptedFor tid w ((Op.put t a r, .err c msg) :: ps) = acceptedFor tid w ps := by
  simp [acceptedFor]

theorem acceptedFor_put_other (tid : MsgId) (w : AppOrProxyId) (t : MsgId)
    (a : AppOrProxyId) (r : MsgSigned EncryptedMsgTaskResult) (o : Outcome)
    (ps : List (Op × Outcome)) (hpair : ¬(t = tid ∧ r.msg.«from» = w)) :
    acceptedFor tid w ((Op.put t a r, o) :: ps) = acceptedFor tid w ps := by
  cases o with
  | ok c loc =>
    cases loc with
    | none =>
      simp only [acceptedFor]
      rw [if_neg (fun hand => hpair ⟨hand.1, hand.2.1⟩)]
      rfl
    | some l => simp [acceptedFor]
  | err c msg => simp [acceptedFor]
  | panic k => simp [acceptedFor]

theorem acceptedFor_put_accept_cons (tid : MsgId) (w : AppOrProxyId) (a : AppOrProxyId)
    (r : MsgSigned EncryptedMsgTaskResult) (c : Nat) (ps : List (Op × Outcome))
    (hw : r.msg.«from» = w) (hc : c = 201 ∨ c = 204) :
    acceptedFor tid w ((Op.put tid a r, .ok c none) :: ps)
      = (r, c) :: acceptedFor tid w ps := by
  simp only [acceptedFor]
  rcases hc with hc | hc <;> subst hc <;> simp [hw]

theorem codesFrom_true (n : Nat) : codesFrom true n = List.replicate n 204 := by
  cases n with
  | zero => rfl
  | succ k => simp [codesFrom, List.replicate_succ]

theorem entryAt_of_lookup (s : TasksState) (tid : MsgId) (w : AppOrProxyId)
    (task : MsgSigned EncryptedMsgTaskRequest) (htask : alookup s.tasks tid = some task) :
    entryAt s tid w = alookup task.msg.results w := by
  simp [entryAt, htask]

theorem entryAt_post (s : TasksState) (m : MsgSigned EncryptedMsgTaskRequest)
    (tid : MsgId) (w : AppOrProxyId) (hres : m.msg.id = tid → m.msg.results = []) :
    entryAt (post_task s m).2 tid w = entryAt s tid w := by
  by_cases hc : (alookup s.tasks m.msg.id).isSome = true
  · rw [post_task_conflict s m hc]
  · rw [post_task_fresh s m (by simpa using hc)]
    by_cases hid : m.msg.id = tid
    · have hnone : alookup s.tasks tid = none := by
        rw [← hid]
        cases hl : alookup s.tasks m.msg.id with
        | none => rfl
        | some v => rw [hl] at hc; exact absurd rfl hc
      subst hid
      simp [entryAt, alookup_ainsert_self, hnone, hres rfl, alookup]
    · have : alookup (ainsert m.msg.id m s.tasks) tid = alookup s.tasks tid :=
        alookup_ainsert_ne s.tasks m (fun hcc => hid hcc.symm)
      simp [entryAt, this]

theorem entryAt_expire_other (s : TasksState) (t tid : MsgId) (w : AppOrProxyId)
    (hne : t ≠ tid) : entryAt (remove_task s t).2 tid w = entryAt s tid w := by
  have : alookup (aerase t s.tasks) tid = alookup s.tasks tid :=
    alookup_aerase_ne s.tasks (fun hcc => hne hcc.symm)
  simp [remove_task, entryAt, this]

theorem entryAt_putUpdated_self (s : TasksState) (tid : MsgId)
    (r : MsgSigned EncryptedMsgTaskResult) (task : MsgSigned EncryptedMsgTaskRequest) :
    entryAt (putUpdatedState s tid r task) tid r.msg.«from» = some r := by
  simp [putUpdatedState, entryAt, alookup_ainsert_self]

theorem entryAt_put_other (s : TasksState) (t : MsgId) (a : AppOrProxyId)
    (r : MsgSigned EncryptedMsgTaskResult) (tid : MsgId) (w : AppOrProxyId)
    (hpair : ¬(t = tid ∧ r.msg.«from» = w)) :
    entryAt (put_result s t a r).2 tid w = entryAt s tid w := by
  by_cases h1 : t = r.msg.task
  · by_cases h2 : a = r.msg.«from»
    · cases htask : alookup s.tasks t with
      | none => rw [put_result_not_found s t a r h1 h2 htask]
      | some task =>
        by_cases hto : r.msg.«from» ∈ task.msg.«to»
        · have hupd : entryAt (putUpdatedState s t r task) tid w = entryAt s tid w := by
            by_cases ht : t = tid
            · subst ht
              have hw : r.msg.«from» ≠ w := fun hcc => hpair ⟨rfl, hcc⟩
              have hres : alookup (ainsert r.msg.«from» r task.msg.results) w
                  = alookup task.msg.results w :=
                alookup_ainsert_ne task.msg.results r (fun hcc => hw hcc.symm)
              simp [putUpdatedState, entryAt, alookup_ainsert_self, htask, hres]
            · simp only [putUpdatedState, entryAt]
              rw [alookup_ainsert_ne s.tasks _ (fun hcc => ht hcc.symm)]
          by_cases htx : t ∈ s.new_result_tx
          · rw [put_result_accept s t a r task h1 h2 htask hto htx]
            exact hupd
          · rw [put_result_accept_panic s t a r task h1 h2 htask hto htx]
            exact hupd
        · rw [put_result_unauthorized s t a r task h1 h2 htask hto]
    · rw [put_result_app_mismatch s t a r h1 h2]
  · rw [put_result_id_mismatch s t a r h1]

/-- Generalized invariant for C2: starting from any state satisfying the
sender-map invariant, over a request sequence that never expires the watched
task and only posts it with an empty result map, the stored `(tid, w)` entry is
the last accepted submission (falling back to the initial entry), and the
accepted submissions' codes are 201 then 204s when the slot started empty, and
all 204s otherwise. -/
theorem c2_aux (tid : MsgId) (w : AppOrProxyId) :
    ∀ (ops : List Op) (s : TasksState), keysSub s →
      (∀ t, Op.expire t ∈ ops → t ≠ tid) →
      (∀ m, Op.post m ∈ ops → m.msg.id = tid → m.msg.results = []) →
      entryAt (execOps s ops) tid w
        = lastOr (entryAt s tid w) ((acceptedFor tid w (runPairs s ops)).map Prod.fst)
      ∧ (acceptedFor tid w (runPairs s ops)).map Prod.snd
        = codesFrom (entryAt s tid w).isSome (acceptedFor tid w (runPairs s ops)).length := by
  intro ops
  induction ops with
  | nil =>
    intro s hK hexp hpost
    constructor
    · rfl
    · rfl
  | cons op rest ih =>
    intro s hK hexp hpost
    have hexp' : ∀ t, Op.expire t ∈ rest → t ≠ tid :=
      fun t ht => hexp t (List.mem_cons_of_mem _ ht)
    have hpost' : ∀ m, Op.post m ∈ rest → m.msg.id = tid → m.msg.results = [] :=
      fun m hm => hpost m (List.mem_cons_of_mem _ hm)
    cases op with
    | post m =>
      have hpres : entryAt (post_task s m).2 tid w = entryAt s tid w :=
        entryAt_post s m tid w (hpost m (List.mem_cons_self _ _))
      obtain ⟨ih1, ih2⟩ := ih (post_task s m).2 (keysSub_post s m hK) hexp' hpost'
      simp only [execOps, runPairs, stepOp]
      rw [acceptedFor_post_cons]
      exact ⟨by rw [ih1, hpres], by rw [ih2, hpres]⟩
    | expire t =>
      have hne : t ≠ tid := hexp t (List.mem_cons_self _ _)
      have hpres : entryAt (remove_task s t).2 tid w = entryAt s tid w :=
        entryAt_expire_other s t tid w hne
      obtain ⟨ih1, ih2⟩ := ih (remove_task s t).2 (keysSub_expire s t hK) hexp' hpost'
      simp only [execOps, runPairs, stepOp]
      rw [acceptedFor_expire_cons]
      exact ⟨by rw [ih1, hpres], by rw [ih2, hpres]⟩
    | put t a r =>
      have hK' := keysSub_put s t a r hK
      by_cases hpair : t = tid ∧ r.msg.«from» = w
      · obtain ⟨ht, hw⟩ := hpair
        subst ht
        by_cases h1 : t = r.msg.task
        · by_cases h2 : a = r.msg.«from»
          · cases htask : alookup s.tasks t with
            | none =>
              have hstep := put_result_not_found s t a r h1 h2 htask
              obtain ⟨ih1, ih2⟩ := ih (put_result s t a r).2 hK' hexp' hpost'
              rw [hstep] at ih1 ih2
              simp only [execOps, runPairs, stepOp, hstep]
              rw [acceptedFor_put_err_cons]
              exact ⟨ih1, ih2⟩
            | some task =>
              by_cases hto : r.msg.«from» ∈ task.msg.«to»
              · have htx : t ∈ s.new_result_tx := hK t (by simp [htask])
                have hentry : entryAt s t w = alookup task.msg.results w :=
                  entryAt_of_lookup s t w task htask
                have hentry' : entryAt (putUpdatedState s t r task) t w = some r := by
                  rw [← hw]
                  exact entryAt_putUpdated_self s t r task
                obtain ⟨ih1, ih2⟩ := ih (put_result s t a r).2 hK' hexp' hpost'
                cases hprev : alookup task.msg.results r.msg.«from» with
                | none =>
                  have hstep := put_result_accept_new s t a r task h1 h2 htask hto htx hprev
                  rw [hstep] at ih1 ih2
                  simp only at ih1 ih2
                  rw [hentry'] at ih1 ih2
                  simp only [Option.isSome_some, codesFrom_true] at ih2
                  have hnone : entryAt s t w = none := by
                    rw [hentry, ← hw]
                    exact hprev
                  simp only [execOps, runPairs, stepOp, hstep]
                  rw [acceptedFor_put_accept_cons t w a r 201 _ hw (Or.inl rfl)]
                  constructor
                  · rw [List.map_cons]
                    show entryAt _ t w = lastOr (some r) _
                    rw [ih1]
                  · rw [List.map_cons, List.length_cons, ih2, hnone]
                    simp [codesFrom]
                | some prev =>
                  have hstep :=
                    put_result_accept_replace s t a r task prev h1 h2 htask hto htx hprev
                  rw [hstep] at ih1 ih2
                  simp only at ih1 ih2
                  rw [hentry'] at ih1 ih2
                  simp only [Option.isSome_some, codesFrom_true] at ih2
                  have hsome : entryAt s t w = some prev := by
                    rw [hentry, ← hw]
                    exact hprev
                  simp only [execOps, runPairs, stepOp, hstep]
                  rw [acceptedFor_put_accept_cons t w a r 204 _ hw (Or.inr rfl)]
                  constructor
                  · rw [List.map_cons]
                    show entryAt _ t w = lastOr (some r) _
                    rw [ih1]
                  · rw [List.map_cons, List.length_cons, ih2, hsome]
                    simp [codesFrom, List.replicate_succ]
              · have hstep := put_result_unauthorized s t a r task h1 h2 htask hto
                obtain ⟨ih1, ih2⟩ := ih (put_result s t a r).2 hK' hexp' hpost'
                rw [hstep] at ih1 ih2
                simp only [execOps, runPairs, stepOp, hstep]
                rw [acceptedFor_put_err_cons]
                exact ⟨ih1, ih2⟩
          · have hstep := put_result_app_mismatch s t a r h1 h2
            obtain ⟨ih1, ih2⟩ := ih (put_result s t a r).2 hK' hexp' hpost'
            rw [hstep] at ih1 ih2
            simp only [execOps, runPairs, stepOp, hstep]
            rw [acceptedFor_put_err_cons]
            exact ⟨ih1, ih2⟩
        · have hstep := put_result_id_mismatch s t a r h1
          obtain ⟨ih1, ih2⟩ := ih (put_result s t a r).2 hK' hexp' hpost'
          rw [hstep] at ih1 ih2
          simp only [execOps, runPairs, stepOp, hstep]
          rw [acceptedFor_put_err_cons]
          exact ⟨ih1, ih2⟩
      · have hpres := entryAt_put_other s t a r tid w hpair
        obtain ⟨ih1, ih2⟩ := ih (put_result s t a r).2 hK' hexp' hpost'
        simp only [execOps, runPairs, stepOp]
        rw [acceptedFor_put_other tid w t a r _ _ hpair]
        exact ⟨by rw [ih1, hpres], by rw [ih2, hpres]⟩

/-- C2: starting from the empty registry, over any request sequence that never
expires task `tid` and only posts `tid` with an empty result map, the stored
result of `tid` from worker `w` is exactly the last accepted PUT for the
`(tid, w)` pair (absent when there was none), and the accepted PUTs for the
pair were answered 201 Created first and 204 No Content on every later one. -/
theorem c2_result_idempotent (ops : List Op) (tid : MsgId) (w : AppOrProxyId)
    (hexp : ∀ t, Op.expire t ∈ ops → t ≠ tid)
    (hpost : ∀ m, Op.post m ∈ ops → m.msg.id = tid → m.msg.results = []) :
    entryAt (execOps emptyState ops) tid w
      = lastOr none ((acceptedFor tid w (runPairs emptyState ops)).map Prod.fst)
    ∧ (acceptedFor tid w (runPairs emptyState ops)).map Prod.snd
      = codesFrom false (acceptedFor tid w (runPairs emptyState ops)).length := by
  have hK : keysSub emptyState := fun k h => absurd h (by simp [emptyState, alookup])
  have hempty : entryAt emptyState tid w = none := rfl
  have := c2_aux tid w ops emptyState hK hexp hpost
  rwa [hempty] at this

/-- C2 witness: posting `task1` and submitting `res1` then `res2` from `appB`
stores exactly `res2`, with codes 201 then 204. -/
theorem c2_result_idempotent_witness :
    entryAt (execOps emptyState [Op.post task1, Op.put id1 appB res1, Op.put id1 appB res2])
        id1 appB
      = lastOr none ((acceptedFor id1 appB (runPairs emptyState
          [Op.post task1, Op.put id1 appB res1, Op.put id1 appB res2])).map Prod.fst)
    ∧ (acceptedFor id1 appB (runPairs emptyState
          [Op.post task1, Op.put id1 appB res1, Op.put id1 appB res2])).map Prod.snd
      = codesFrom false (acceptedFor id1 appB (runPairs emptyState
          [Op.post task1, Op.put id1 appB res1, Op.put id1 appB res2])).length :=
  c2_result_idempotent [Op.post task1, Op.put id1 appB res1, Op.put id1 appB res2] id1 appB
    (by intro t ht; simp at ht)
    (by intro m hm hid; simp at hm; rw [hm]; rfl)

end Beam
